import Mathlib

set_option autoImplicit false

/-
Verification development for the armature-binding core of the MMD UuuNyaa
tools (mmd_uuunyaa_tools/editors/armatures/__init__.py).  The Python source
is shallowly embedded: Blender collections become lists, custom properties
and constraint fields become association lists, drivers become records, and
fallible dictionary-style accesses return Except values carrying the Python
KeyError.  Rational numbers stand in for the scalar float properties and real
numbers for the geometric computations.
-/

/-- Values assignable to a constraint field through setattr: strings
(space names and subtargets), object references, integers (chain counts and
iteration counts), scalars, and booleans. -/
inductive Value where
  | str : String → Value
  | obj : String → Value
  | int : Int → Value
  | num : ℚ → Value
  | bool : Bool → Value
deriving DecidableEq

/-- Lookup in an association list, first match wins; this is the shape of a
Python dictionary access and of attribute lookup in the embedding. -/
def alookup {κ α : Type} [DecidableEq κ] : List (κ × α) → κ → Option α
  | [], _ => none
  | (k, v) :: rest, key => if k = key then some v else alookup rest key

/-- Replace the value at a key, or append the binding when the key is absent.
This is Python dictionary assignment (which keeps the original slot of an
existing key), Blender custom-property assignment (which creates a missing
property), and setattr on a constraint. -/
def updAssoc {κ α : Type} [DecidableEq κ] : List (κ × α) → κ → α → List (κ × α)
  | [], key, value => [(key, value)]
  | (k, v) :: rest, key, value =>
    if k = key then (key, value) :: rest else (k, v) :: updAssoc rest key value

/-- Whether p is an initial segment of s, by characters; the semantics of the
Python str.startswith test on these names. -/
def strStartsWith (s p : String) : Bool :=
  p.data.isPrefixOf s.data

/-- The string with its first n characters removed; the semantics of Python
slicing as used on the driver expressions. -/
def strDrop (s : String) (n : Nat) : String :=
  String.mk (s.data.drop n)

/-- One variable of an expression driver: a name bound to a scalar property
located by a target object and a data path (DriverVariable in the source). -/
structure DriverVariable where
  name : String
  target : String
  data_path : String
deriving DecidableEq

/-- An expression driver attached to a constraint field: the driven path, the
arithmetic expression string, and the variables the expression can read. -/
structure Driver where
  path : String
  expression : String
  vars : List DriverVariable
deriving DecidableEq

/-- A pose-bone constraint: its kind (the bpy constraint type string), its
name, its assigned fields, and the drivers attached to it. -/
structure Constraint where
  ctype : String
  name : String
  props : List (String × Value)
  drivers : List Driver
deriving DecidableEq

/-- A pose bone: its name, the mmd_bone.name_j tag holding the assigned MMD
standard bone name, its custom scalar properties, and its constraint stack. -/
structure PoseBone where
  name : String
  name_j : String
  props : List (String × ℚ)
  constraints : List Constraint
deriving DecidableEq

/-- Assign one constraint field, as setattr does in add_constraint. -/
def setattr (c : Constraint) (key : String) (value : Value) : Constraint :=
  { c with props := updAssoc c.props key value }

/-- Assign constraint fields left to right, as the kwargs loop of
add_constraint does. -/
def setattrs (c : Constraint) (kwargs : List (String × Value)) : Constraint :=
  kwargs.foldl (fun acc kv => setattr acc kv.1 kv.2) c

/-- Read back a constraint field; none when the field was never assigned. -/
def getattr (c : Constraint) (key : String) : Option Value :=
  alookup c.props key

/-- PoseUtil.add_driver: attach a driver with the given variables and
expression to the given path of the constraint. -/
def add_driver (c : Constraint) (driver_path driver_expression : String)
    (driver_variables : List DriverVariable) : Constraint :=
  { c with drivers := c.drivers ++
      [{ path := driver_path, expression := driver_expression, vars := driver_variables }] }

/-- PoseUtil.add_influence_driver: attach a driver to the influence path whose
single variable mmd_uuunyaa_influence reads the given data path on the target,
with expression +mmd_uuunyaa_influence, or 1-mmd_uuunyaa_influence when the
influence is inverted. -/
def add_influence_driver (c : Constraint) (target data_path : String)
    (invert_influence : Bool) : Constraint :=
  add_driver c "influence" ((if invert_influence then "1-" else "+") ++ "mmd_uuunyaa_influence")
    [{ name := "mmd_uuunyaa_influence", target := target, data_path := data_path }]

/-- The bpy driver_remove call on a constraint path: every driver on that path
is detached. -/
def driver_remove (c : Constraint) (driver_path : String) : Constraint :=
  { c with drivers := c.drivers.filter (fun d => !(d.path == driver_path)) }

/-- PoseUtil.update_influence_driver: remove the influence driver, then re-add
it from the given target, data path and inversion flag. -/
def update_influence_driver (c : Constraint) (target data_path : String)
    (invert_influence : Bool) : Constraint :=
  add_influence_driver (driver_remove c "influence") target data_path invert_influence

/-- PoseUtil.add_constraint: append a new constraint of the given kind to the
bone's stack, set its name, assign the keyword fields in order, and return the
created constraint alongside the updated bone. -/
def add_constraint (pose_bone : PoseBone) (constraint_type cname : String)
    (kwargs : List (String × Value)) : PoseBone × Constraint :=
  let c := setattrs { ctype := constraint_type, name := cname, props := [], drivers := [] } kwargs
  ({ pose_bone with constraints := pose_bone.constraints ++ [c] }, c)

/-- Models the in-place mutation of the constraint object that was just
appended to the bone's stack: in the source the helpers hold a reference to
the appended constraint and then attach a driver to it, so the bone's last
stack entry is the mutated constraint. -/
def writeBack (pose_bone : PoseBone) (c : Constraint) : PoseBone :=
  { pose_bone with constraints := pose_bone.constraints.dropLast ++ [c] }

/-- PoseUtil.add_copy_transforms_constraint. -/
def add_copy_transforms_constraint (pose_bone : PoseBone)
    (target_object subtarget space influence_data_path : String)
    (invert_influence : Bool) (kwargs : List (String × Value)) : PoseBone × Constraint :=
  let bc := add_constraint pose_bone "COPY_TRANSFORMS" "mmd_uuunyaa_copy_transforms"
    ([("target", Value.obj target_object), ("subtarget", Value.str subtarget),
      ("target_space", Value.str space), ("owner_space", Value.str space)] ++ kwargs)
  let c := add_influence_driver bc.2 target_object influence_data_path invert_influence
  (writeBack bc.1 c, c)

/-- PoseUtil.add_copy_rotation_constraint. -/
def add_copy_rotation_constraint (pose_bone : PoseBone)
    (target_object subtarget space influence_data_path : String)
    (invert_influence : Bool) (kwargs : List (String × Value)) : PoseBone × Constraint :=
  let bc := add_constraint pose_bone "COPY_ROTATION" "mmd_uuunyaa_copy_rotation"
    ([("target", Value.obj target_object), ("subtarget", Value.str subtarget),
      ("target_space", Value.str space), ("owner_space", Value.str space)] ++ kwargs)
  let c := add_influence_driver bc.2 target_object influence_data_path invert_influence
  (writeBack bc.1 c, c)

/-- PoseUtil.add_copy_location_constraint. -/
def add_copy_location_constraint (pose_bone : PoseBone)
    (target_object subtarget space influence_data_path : String)
    (invert_influence : Bool) (kwargs : List (String × Value)) : PoseBone × Constraint :=
  let bc := add_constraint pose_bone "COPY_LOCATION" "mmd_uuunyaa_copy_location"
    ([("target", Value.obj target_object), ("subtarget", Value.str subtarget),
      ("target_space", Value.str space), ("owner_space", Value.str space)] ++ kwargs)
  let c := add_influence_driver bc.2 target_object influence_data_path invert_influence
  (writeBack bc.1 c, c)

/-- PoseUtil.add_copy_scale_constraint. -/
def add_copy_scale_constraint (pose_bone : PoseBone)
    (target_object subtarget space influence_data_path : String)
    (invert_influence : Bool) (kwargs : List (String × Value)) : PoseBone × Constraint :=
  let bc := add_constraint pose_bone "COPY_SCALE" "mmd_uuunyaa_copy_scale"
    ([("target", Value.obj target_object), ("subtarget", Value.str subtarget),
      ("target_space", Value.str space), ("owner_space", Value.str space)] ++ kwargs)
  let c := add_influence_driver bc.2 target_object influence_data_path invert_influence
  (writeBack bc.1 c, c)

/-- PoseUtil.add_ik_constraint: note that the source passes chain_count and
iterations but no space argument, so no target_space or owner_space field is
ever assigned here. -/
def add_ik_constraint (pose_bone : PoseBone)
    (target_object subtarget influence_data_path : String)
    (chain_count iterations : Int)
    (invert_influence : Bool) (kwargs : List (String × Value)) : PoseBone × Constraint :=
  let bc := add_constraint pose_bone "IK" "mmd_uuunyaa_ik_mmd"
    ([("target", Value.obj target_object), ("subtarget", Value.str subtarget),
      ("chain_count", Value.int chain_count), ("iterations", Value.int iterations)] ++ kwargs)
  let c := add_influence_driver bc.2 target_object influence_data_path invert_influence
  (writeBack bc.1 c, c)

/-- Index-based iteration over a live constraint stack with removal of the
current element, as Python performs it for the loop of
PoseUtil.remove_constraints: the iterator yields the element at index i and
then advances to i + 1 whether or not the body removed the element, so a
removal shifts the following elements one slot down and the element that was
immediately after the removed one is never yielded.  The fuel argument, set to
the initial stack length by the caller, only bounds the recursion; the loop
always terminates by exhausting the index first because the index grows at
every step and the stack never grows. -/
def constraintsIterRemove : Nat → List Constraint → Nat → List Constraint
  | 0, cs, _ => cs
  | fuel + 1, cs, i =>
    match cs[i]? with
    | none => cs
    | some c =>
      if strStartsWith c.name "mmd_uuunyaa_" then
        constraintsIterRemove fuel (cs.eraseIdx i) (i + 1)
      else
        constraintsIterRemove fuel cs (i + 1)

/-- PoseUtil.remove_constraints: for every given pose bone, iterate its live
constraint stack and remove each constraint whose name starts with the
reserved mmd_uuunyaa_ name tag. -/
def remove_constraints (pose_bones : List PoseBone) : List PoseBone :=
  pose_bones.map (fun pose_bone =>
    { pose_bone with
      constraints := constraintsIterRemove pose_bone.constraints.length pose_bone.constraints 0 })

/-- ArmatureObjectABC.to_bone_suffix: the regex search for a trailing
underscore or dot followed by one of l, L, r, R; on a match the letter is
normalized to L or R, otherwise the result is none. -/
def to_bone_suffix (bone_name : String) : Option String :=
  match bone_name.data.reverse with
  | c :: s :: _ =>
    if (c = 'l' ∨ c = 'L' ∨ c = 'r' ∨ c = 'R') ∧ (s = '_' ∨ s = '.') then
      if c = 'l' ∨ c = 'L' then some "L" else some "R"
    else none
  | _ => none

/-- Side-suffix extraction as the specification sentence words it: a trailing
case-insensitive left or right letter, only optionally preceded by an
underscore or a dot.  This second definition is written from the words of the
claim, to be compared with to_bone_suffix, which is written from the source. -/
def spec_side_suffix (bone_name : String) : Option String :=
  match bone_name.data.reverse with
  | c :: _ =>
    if c = 'l' ∨ c = 'L' then some "L"
    else if c = 'r' ∨ c = 'R' then some "R"
    else none
  | [] => none

/-- A 3-vector with real coordinates, standing in for mathutils.Vector. -/
structure Vec3 where
  x : ℝ
  y : ℝ
  z : ℝ

/-- The two-argument arctangent of the Python math library, idealized over the
reals: the angle of the point (x, y) in the plane, in (-pi, pi]. -/
noncomputable def atan2 (y x : ℝ) : ℝ :=
  if 0 < x then Real.arctan (y / x)
  else if x < 0 ∧ 0 ≤ y then Real.arctan (y / x) + Real.pi
  else if x < 0 then Real.arctan (y / x) - Real.pi
  else if 0 < y then Real.pi / 2
  else if y < 0 then -(Real.pi / 2)
  else 0

/-- ArmatureObjectABC.to_angle: the angle of the vector's projection onto the
XZ, XY or YZ plane, and a ValueError message for any other plane tag. -/
noncomputable def to_angle (vector : Vec3) (plane : String) : Except String ℝ :=
  if plane = "XZ" then Except.ok (atan2 vector.z vector.x)
  else if plane = "XY" then Except.ok (atan2 vector.y vector.x)
  else if plane = "YZ" then Except.ok (atan2 vector.z vector.y)
  else Except.error ("unknown plane, expected: XY, XZ, YZ, not " ++ plane)

/-- Whether an Except value is a success. -/
def exceptOk {ε α : Type} : Except ε α → Bool
  | Except.ok _ => true
  | Except.error _ => false

/-- The ControlType enumeration of the source. -/
inductive ControlType where
  | EYE_MMD_UUUNYAA | BIND_MMD_UUUNYAA | LEG_L_MMD_UUUNYAA | LEG_R_MMD_UUUNYAA
  | TOE_L_MMD_UUUNYAA | TOE_R_MMD_UUUNYAA | TORSO_NECK_FOLLOW | TORSO_HEAD_FOLLOW
  | ARM_L_IK_FK | ARM_R_IK_FK | ARM_L_IK_STRETCH | ARM_R_IK_STRETCH
  | ARM_L_IK_PARENT | ARM_R_IK_PARENT | ARM_L_POLE_VECTOR | ARM_R_POLE_VECTOR
  | LEG_L_IK_FK | LEG_R_IK_FK | LEG_L_IK_STRETCH | LEG_R_IK_STRETCH
  | LEG_L_IK_PARENT | LEG_R_IK_PARENT | LEG_L_POLE_VECTOR | LEG_R_POLE_VECTOR
  | LEG_L_POLE_PARENT | LEG_R_POLE_PARENT
deriving DecidableEq

/-- A DataPath registry entry: the bone owning the control property and the
property's name on that bone. -/
structure DataPath where
  bone_name : String
  prop_name : String
deriving DecidableEq

/-- The Python exception relevant to the embedded accessors: the KeyError of a
failed dictionary-style lookup, carrying the missing key. -/
inductive PyErr where
  | keyError : String → PyErr
deriving DecidableEq

/-- The state a RichArmatureObjectABC instance reads and writes: its datapaths
registry and the pose bones of the underlying armature object. -/
structure Rig where
  datapaths : List (ControlType × DataPath)
  pose_bones : List PoseBone
deriving DecidableEq

/-- First pose bone with the given name, the result of a bpy collection
subscript before its KeyError is raised. -/
def findBone : List PoseBone → String → Option PoseBone
  | [], _ => none
  | b :: rest, n => if b.name = n then some b else findBone rest n

/-- Replace the first pose bone with the given name by its image under f,
modelling an in-place mutation of that bone. -/
def updateBone : List PoseBone → String → (PoseBone → PoseBone) → List PoseBone
  | [], _, _ => []
  | b :: rest, n, f => if b.name = n then f b :: rest else b :: updateBone rest n f

/-- RichArmatureObjectABC._get_property: none when the registry has no entry
for the control type; otherwise the bone subscript and then the property
subscript, each raising KeyError when its key is absent. -/
def get_property (rig : Rig) (control_type : ControlType) : Except PyErr (Option ℚ) :=
  match alookup rig.datapaths control_type with
  | none => Except.ok none
  | some datapath =>
    match findBone rig.pose_bones datapath.bone_name with
    | none => Except.error (PyErr.keyError datapath.bone_name)
    | some b =>
      match alookup b.props datapath.prop_name with
      | none => Except.error (PyErr.keyError datapath.prop_name)
      | some value => Except.ok (some value)

/-- RichArmatureObjectABC._set_property: a silent return when the registry has
no entry; a KeyError when the owner bone is absent; otherwise the custom
property assignment, which overwrites an existing property or creates a
missing one. -/
def set_property (rig : Rig) (control_type : ControlType) (value : ℚ) : Except PyErr Rig :=
  match alookup rig.datapaths control_type with
  | none => Except.ok rig
  | some datapath =>
    match findBone rig.pose_bones datapath.bone_name with
    | none => Except.error (PyErr.keyError datapath.bone_name)
    | some _ =>
      let put : PoseBone → PoseBone :=
        fun b => { b with props := updAssoc b.props datapath.prop_name value }
      Except.ok { rig with pose_bones := updateBone rig.pose_bones datapath.bone_name put }

/-- The generated arm_l_ik_fk property getter, which delegates to
_get_property at ControlType.ARM_L_IK_FK. -/
def arm_l_ik_fk (rig : Rig) : Except PyErr (Option ℚ) :=
  get_property rig ControlType.ARM_L_IK_FK

/-- The generated arm_l_ik_fk property setter, which delegates to
_set_property at ControlType.ARM_L_IK_FK. -/
def arm_l_ik_fk_set (rig : Rig) (value : ℚ) : Except PyErr Rig :=
  set_property rig ControlType.ARM_L_IK_FK value

/-- Python dict update: fold the items into the dictionary, replacing values
of existing keys in place and appending new keys in order. -/
def dictUpdate (d : List (String × Option String)) (items : List (String × Option String)) :
    List (String × Option String) :=
  items.foldl (fun acc kv => updAssoc acc kv.1 kv.2) d

/-- The dict comprehension of assign_mmd_bone_names, keyed by mmd bone name. -/
def mkDict (items : List (String × Option String)) : List (String × Option String) :=
  dictUpdate [] items

/-- Python dict membership test. -/
def hasKey (d : List (String × Option String)) (key : String) : Bool :=
  (alookup d key).isSome

/-- The mapping assign_mmd_bone_names works with: the dict built from the
mmd_bind_infos rows, updated with the caller's overrides when present. -/
def mergedMapping (mmd_bind_infos : List (String × Option String))
    (overrides : Option (List (String × Option String))) : List (String × Option String) :=
  match overrides with
  | none => mkDict mmd_bind_infos
  | some ov => dictUpdate (mkDict mmd_bind_infos) ov

/-- The clearing loop of assign_mmd_bone_names: every pose bone whose name_j
tag is a key of the mapping has the tag reset to the empty string. -/
def clearLoop (mapping : List (String × Option String)) (pose_bones : List PoseBone) :
    List PoseBone :=
  pose_bones.map (fun b => if hasKey mapping b.name_j then { b with name_j := "" } else b)

/-- The assignment loop of assign_mmd_bone_names: rows mapped to none are
skipped, rows whose pose bone is absent from the rig are skipped, and each
remaining row writes its mmd bone name into the tag of its pose bone. -/
def assignLoop (pose_bones : List PoseBone) :
    List (String × Option String) → List PoseBone
  | [] => pose_bones
  | (mmd_bone_name, pose_bone_name) :: rest =>
    match pose_bone_name with
    | none => assignLoop pose_bones rest
    | some pn =>
      if (findBone pose_bones pn).isSome then
        assignLoop (updateBone pose_bones pn (fun b => { b with name_j := mmd_bone_name })) rest
      else
        assignLoop pose_bones rest

/-- RichArmatureObjectABC.assign_mmd_bone_names over the embedded state: build
the mapping from the bind rows, apply the overrides, clear every managed tag,
then assign each mapped name. -/
def assign_mmd_bone_names (mmd_bind_infos : List (String × Option String))
    (overrides : Option (List (String × Option String))) (pose_bones : List PoseBone) :
    List PoseBone :=
  let mapping := mergedMapping mmd_bind_infos overrides
  assignLoop (clearLoop mapping pose_bones) mapping

/-- The last mmd bone name a run of the assignment loop writes into the bone
named n, starting from the tag value cur; a proof artifact characterizing
assignLoop bone by bone. -/
def writeFold (items : List (String × Option String)) (n : String) (cur : String) : String :=
  match items with
  | [] => cur
  | (m, pn) :: rest => writeFold rest n (if pn = some n then m else cur)

/-- A bone carries an assignment of the mmd standard name m when its name_j
tag equals m; the empty tag is the cleared state of the source, not an
assignment. -/
def assignedTo (b : PoseBone) (mmd_bone_name : String) : Prop :=
  b.name_j = mmd_bone_name ∧ mmd_bone_name ≠ ""

/-- Modelled from the spec: the host runtime evaluating an expression driver
is outside src/; per the spec's host interface, a driver binds each variable
name to the scalar value found at that variable's target and data path and
evaluates a small arithmetic expression of one of the two forms +name (the
value itself) and 1-name (one minus the value). -/
def evalDriver (d : Driver) (propValue : String → String → ℚ) : Option ℚ :=
  let env : String → Option ℚ := fun n =>
    (d.vars.find? (fun dv => dv.name == n)).map (fun dv => propValue dv.target dv.data_path)
  if strStartsWith d.expression "+" then env (strDrop d.expression 1)
  else if strStartsWith d.expression "1-" then (env (strDrop d.expression 2)).map (fun value => 1 - value)
  else none

/-- The MMDBoneType enumeration of the source. -/
inductive MMDBoneType where
  | STANDARD | PARENT | UPPER_ARM_TWIST | WRIST_TWIST | UPPER_BODY_1 | UPPER_BODY_2
  | GROOVE | TOLSO | LEG_IK_PARENT | CONTROL | TOE_EX | HAND_ACCESSORIES
  | SHOULDER_CANCEL | THUMB_0 | OTHERS
deriving DecidableEq, BEq

/-- The MMDBoneInfo catalog: every member's mmd bone name paired with its bone
type, in source order. -/
def mmd_bone_info_entries : List (String × MMDBoneType) := [
  ("全ての親", MMDBoneType.PARENT),
  ("センター", MMDBoneType.STANDARD),
  ("グルーブ", MMDBoneType.GROOVE),
  ("腰", MMDBoneType.TOLSO),
  ("上半身", MMDBoneType.STANDARD),
  ("上半身1", MMDBoneType.UPPER_BODY_1),
  ("上半身2", MMDBoneType.UPPER_BODY_2),
  ("首", MMDBoneType.STANDARD),
  ("頭", MMDBoneType.STANDARD),
  ("両目", MMDBoneType.STANDARD),
  ("左目", MMDBoneType.STANDARD),
  ("右目", MMDBoneType.STANDARD),
  ("左肩", MMDBoneType.STANDARD),
  ("左腕", MMDBoneType.STANDARD),
  ("左腕捩", MMDBoneType.UPPER_ARM_TWIST),
  ("左ひじ", MMDBoneType.STANDARD),
  ("左手捩", MMDBoneType.WRIST_TWIST),
  ("左手首", MMDBoneType.STANDARD),
  ("左親指０", MMDBoneType.THUMB_0),
  ("左親指１", MMDBoneType.STANDARD),
  ("左親指２", MMDBoneType.STANDARD),
  ("左人指０", MMDBoneType.OTHERS),
  ("左人指１", MMDBoneType.STANDARD),
  ("左人指２", MMDBoneType.STANDARD),
  ("左人指３", MMDBoneType.STANDARD),
  ("左中指０", MMDBoneType.OTHERS),
  ("左中指１", MMDBoneType.STANDARD),
  ("左中指２", MMDBoneType.STANDARD),
  ("左中指３", MMDBoneType.STANDARD),
  ("左薬指０", MMDBoneType.OTHERS),
  ("左薬指１", MMDBoneType.STANDARD),
  ("左薬指２", MMDBoneType.STANDARD),
  ("左薬指３", MMDBoneType.STANDARD),
  ("左小指０", MMDBoneType.OTHERS),
  ("左小指１", MMDBoneType.STANDARD),
  ("左小指２", MMDBoneType.STANDARD),
  ("左小指３", MMDBoneType.STANDARD),
  ("右肩", MMDBoneType.STANDARD),
  ("右腕", MMDBoneType.STANDARD),
  ("右腕捩", MMDBoneType.UPPER_ARM_TWIST),
  ("右ひじ", MMDBoneType.STANDARD),
  ("右手捩", MMDBoneType.WRIST_TWIST),
  ("右手首", MMDBoneType.STANDARD),
  ("右親指０", MMDBoneType.THUMB_0),
  ("右親指１", MMDBoneType.STANDARD),
  ("右親指２", MMDBoneType.STANDARD),
  ("右人指０", MMDBoneType.OTHERS),
  ("右人指１", MMDBoneType.STANDARD),
  ("右人指２", MMDBoneType.STANDARD),
  ("右人指３", MMDBoneType.STANDARD),
  ("右中指０", MMDBoneType.OTHERS),
  ("右中指１", MMDBoneType.STANDARD),
  ("右中指２", MMDBoneType.STANDARD),
  ("右中指３", MMDBoneType.STANDARD),
  ("右薬指０", MMDBoneType.OTHERS),
  ("右薬指１", MMDBoneType.STANDARD),
  ("右薬指２", MMDBoneType.STANDARD),
  ("右薬指３", MMDBoneType.STANDARD),
  ("右小指０", MMDBoneType.OTHERS),
  ("右小指１", MMDBoneType.STANDARD),
  ("右小指２", MMDBoneType.STANDARD),
  ("右小指３", MMDBoneType.STANDARD),
  ("下半身", MMDBoneType.STANDARD),
  ("左足", MMDBoneType.STANDARD),
  ("左ひざ", MMDBoneType.STANDARD),
  ("左足首", MMDBoneType.STANDARD),
  ("左足ＩＫ", MMDBoneType.STANDARD),
  ("左足先EX", MMDBoneType.TOE_EX),
  ("左足D", MMDBoneType.TOE_EX),
  ("左ひざD", MMDBoneType.TOE_EX),
  ("左足首D", MMDBoneType.TOE_EX),
  ("右足", MMDBoneType.STANDARD),
  ("右ひざ", MMDBoneType.STANDARD),
  ("右足首", MMDBoneType.STANDARD),
  ("右足ＩＫ", MMDBoneType.STANDARD),
  ("右足先EX", MMDBoneType.TOE_EX),
  ("右足D", MMDBoneType.TOE_EX),
  ("右ひざD", MMDBoneType.TOE_EX),
  ("右足首D", MMDBoneType.TOE_EX),
  ("左つま先ＩＫ", MMDBoneType.STANDARD),
  ("右つま先ＩＫ", MMDBoneType.STANDARD),
  ("左つま先", MMDBoneType.STANDARD),
  ("右つま先", MMDBoneType.STANDARD),
  ("左肩C", MMDBoneType.SHOULDER_CANCEL),
  ("左肩P", MMDBoneType.SHOULDER_CANCEL),
  ("右肩C", MMDBoneType.SHOULDER_CANCEL),
  ("右肩P", MMDBoneType.SHOULDER_CANCEL),
  ("左ダミー", MMDBoneType.HAND_ACCESSORIES),
  ("右ダミー", MMDBoneType.HAND_ACCESSORIES),
  ("左足IK親", MMDBoneType.LEG_IK_PARENT),
  ("右足IK親", MMDBoneType.LEG_IK_PARENT)]

/-- The mirrored catalog name of a left-side entry: the leading left marker
replaced by the right marker. -/
def mirrorName (s : String) : String :=
  "右" ++ strDrop s 1

/-- Decidable list membership from decidable equality, so that concrete
catalog membership facts can be settled by evaluation. -/
instance listMemDec {α : Type} [DecidableEq α] (a : α) : (l : List α) → Decidable (a ∈ l)
  | [] => isFalse (by simp)
  | b :: t =>
    if h : a = b then isTrue (h ▸ List.Mem.head t)
    else
      match listMemDec a t with
      | isTrue ht => isTrue (List.Mem.tail b ht)
      | isFalse hf => isFalse (by simp [h, hf])

/-- What one copy-style constraint helper does, parameterized by the helper
and by its constraint kind and constraint name: it appends exactly one
constraint to the bone's stack and returns it; the constraint carries the
expected kind and reserved name; target, subtarget, target_space and
owner_space are set from the arguments, with both spaces equal to the one
space argument; extra keyword fields are applied verbatim; and exactly the
one influence driver, reading the given data path with optional inversion, is
attached. -/
def copyHelperClaim
    (helper : PoseBone → String → String → String → String → Bool → List (String × Value) →
      PoseBone × Constraint)
    (ckind cname : String) (pb : PoseBone) (t s sp p : String) (inv : Bool)
    (kwargs : List (String × Value)) : Prop :=
  (helper pb t s sp p inv kwargs).1.constraints = pb.constraints ++ [(helper pb t s sp p inv kwargs).2] ∧
  (helper pb t s sp p inv kwargs).2.ctype = ckind ∧
  (helper pb t s sp p inv kwargs).2.name = cname ∧
  getattr (helper pb t s sp p inv kwargs).2 "target" = some (Value.obj t) ∧
  getattr (helper pb t s sp p inv kwargs).2 "subtarget" = some (Value.str s) ∧
  getattr (helper pb t s sp p inv kwargs).2 "target_space" = some (Value.str sp) ∧
  getattr (helper pb t s sp p inv kwargs).2 "owner_space" = some (Value.str sp) ∧
  (∀ kv ∈ kwargs, getattr (helper pb t s sp p inv kwargs).2 kv.1 = some kv.2) ∧
  (helper pb t s sp p inv kwargs).2.drivers =
    [{ path := "influence",
       expression := (if inv then "1-" else "+") ++ "mmd_uuunyaa_influence",
       vars := [{ name := "mmd_uuunyaa_influence", target := t, data_path := p }] }]

/-- What add_ik_constraint does: it appends exactly one IK constraint with
the reserved name, sets target, subtarget, chain_count and iterations from
its arguments, applies extra keyword fields verbatim, attaches exactly the
one influence driver, and, having no space argument, leaves target_space and
owner_space unassigned. -/
def ikHelperClaim (pb : PoseBone) (t s p : String) (cc its : Int) (inv : Bool)
    (kwargs : List (String × Value)) : Prop :=
  (add_ik_constraint pb t s p cc its inv kwargs).1.constraints =
    pb.constraints ++ [(add_ik_constraint pb t s p cc its inv kwargs).2] ∧
  (add_ik_constraint pb t s p cc its inv kwargs).2.ctype = "IK" ∧
  (add_ik_constraint pb t s p cc its inv kwargs).2.name = "mmd_uuunyaa_ik_mmd" ∧
  getattr (add_ik_constraint pb t s p cc its inv kwargs).2 "target" = some (Value.obj t) ∧
  getattr (add_ik_constraint pb t s p cc its inv kwargs).2 "subtarget" = some (Value.str s) ∧
  getattr (add_ik_constraint pb t s p cc its inv kwargs).2 "chain_count" = some (Value.int cc) ∧
  getattr (add_ik_constraint pb t s p cc its inv kwargs).2 "iterations" = some (Value.int its) ∧
  getattr (add_ik_constraint pb t s p cc its inv kwargs).2 "target_space" = none ∧
  getattr (add_ik_constraint pb t s p cc its inv kwargs).2 "owner_space" = none ∧
  (∀ kv ∈ kwargs, getattr (add_ik_constraint pb t s p cc its inv kwargs).2 kv.1 = some kv.2) ∧
  (add_ik_constraint pb t s p cc its inv kwargs).2.drivers =
    [{ path := "influence",
       expression := (if inv then "1-" else "+") ++ "mmd_uuunyaa_influence",
       vars := [{ name := "mmd_uuunyaa_influence", target := t, data_path := p }] }]

/-- A sample pose bone carrying one user-authored constraint, used to
evaluate the claims on a concrete input. -/
def exBone : PoseBone :=
  { name := "hand_l", name_j := "",
    props := [],
    constraints := [{ ctype := "LIMIT_ROTATION", name := "my limit", props := [], drivers := [] }] }

/-- A sample constraint already carrying a stale influence driver and a
driver on another path, used to evaluate driver replacement concretely. -/
def exConstraint : Constraint :=
  { ctype := "COPY_ROTATION", name := "mmd_uuunyaa_copy_rotation", props := [],
    drivers :=
      [{ path := "influence", expression := "+mmd_uuunyaa_influence",
         vars := [{ name := "mmd_uuunyaa_influence", target := "OldRig", data_path := "old" }] },
       { path := "mute", expression := "+x", vars := [] }] }

/-- A sample rig whose registry has no entry at all. -/
def exRigNoEntry : Rig :=
  { datapaths := [],
    pose_bones := [{ name := "torso", name_j := "", props := [], constraints := [] }] }

/-- A sample rig resolving the left-arm IK/FK control to an existing bone
that already carries the property. -/
def exRig : Rig :=
  { datapaths := [(ControlType.ARM_L_IK_FK, { bone_name := "torso", prop_name := "arm_l_ik_fk" })],
    pose_bones := [{ name := "torso", name_j := "", props := [("arm_l_ik_fk", 0)], constraints := [] }] }

/-- A sample rig resolving the control to an existing bone that lacks the
property. -/
def exRigNoProp : Rig :=
  { datapaths := [(ControlType.ARM_L_IK_FK, { bone_name := "torso", prop_name := "arm_l_ik_fk" })],
    pose_bones := [{ name := "torso", name_j := "", props := [], constraints := [] }] }

/-- A sample rig resolving the control to a bone absent from the rig. -/
def exRigNoBone : Rig :=
  { datapaths := [(ControlType.ARM_L_IK_FK, { bone_name := "torso", prop_name := "arm_l_ik_fk" })],
    pose_bones := [] }

/-- Sample bind rows for assign_mmd_bone_names: two mapped names and one
name mapped to no pose bone. -/
def exInfos : List (String × Option String) :=
  [("上半身", some "spine_fk"), ("頭", some "head_fk"), ("腰", none)]

/-- Sample caller overrides: one redirects a managed name to another bone,
one points a managed name at a bone absent from the rig. -/
def exOverrides : List (String × Option String) :=
  [("頭", some "head_ctrl"), ("両目", some "missing_bone")]

/-- Sample pose bones for assign_mmd_bone_names: one carrying a stale managed
tag, one carrying a user tag the engine does not manage, one untagged. -/
def exBones : List PoseBone :=
  [{ name := "spine_fk", name_j := "頭", props := [], constraints := [] },
   { name := "head_fk", name_j := "user_tag", props := [], constraints := [] },
   { name := "head_ctrl", name_j := "", props := [], constraints := [] }]

/-
Shared lemmas about the embedding, followed by the claim theorems.
-/

theorem alookup_updAssoc_self {κ α : Type} [DecidableEq κ] (l : List (κ × α)) (k : κ) (v : α) :
    alookup (updAssoc l k v) k = some v := by
  induction l with
  | nil => simp [alookup, updAssoc]
  | cons kv rest ih =>
    obtain ⟨k1, v1⟩ := kv
    by_cases h : k1 = k <;> simp [alookup, updAssoc, h, ih]

theorem alookup_updAssoc_ne {κ α : Type} [DecidableEq κ] (l : List (κ × α)) (k1 k : κ) (v : α)
    (h : k1 ≠ k) : alookup (updAssoc l k1 v) k = alookup l k := by
  induction l with
  | nil => simp [alookup, updAssoc, h]
  | cons kv rest ih =>
    obtain ⟨k2, v2⟩ := kv
    by_cases h2 : k2 = k1 <;> by_cases h3 : k2 = k <;> simp_all [alookup, updAssoc]

theorem setattrs_append (c : Constraint) (l1 l2 : List (String × Value)) :
    setattrs c (l1 ++ l2) = setattrs (setattrs c l1) l2 := by
  simp [setattrs, List.foldl_append]

theorem setattrs_ctype (c : Constraint) (kwargs : List (String × Value)) :
    (setattrs c kwargs).ctype = c.ctype := by
  induction kwargs generalizing c with
  | nil => rfl
  | cons kv rest ih => exact ih (setattr c kv.1 kv.2)

theorem setattrs_cname (c : Constraint) (kwargs : List (String × Value)) :
    (setattrs c kwargs).name = c.name := by
  induction kwargs generalizing c with
  | nil => rfl
  | cons kv rest ih => exact ih (setattr c kv.1 kv.2)

theorem setattrs_drivers (c : Constraint) (kwargs : List (String × Value)) :
    (setattrs c kwargs).drivers = c.drivers := by
  induction kwargs generalizing c with
  | nil => rfl
  | cons kv rest ih => exact ih (setattr c kv.1 kv.2)

theorem getattr_setattrs_not_mem (c : Constraint) (kwargs : List (String × Value)) (key : String)
    (h : key ∉ kwargs.map Prod.fst) :
    getattr (setattrs c kwargs) key = getattr c key := by
  induction kwargs generalizing c with
  | nil => rfl
  | cons kv rest ih =>
    obtain ⟨k1, v1⟩ := kv
    have h1 : key ≠ k1 := fun he => h (by simp [he])
    have h2 : key ∉ rest.map Prod.fst := fun hm => h (by simp [hm])
    show getattr (setattrs (setattr c k1 v1) rest) key = getattr c key
    rw [ih (setattr c k1 v1) h2]
    exact alookup_updAssoc_ne c.props k1 key v1 (Ne.symm h1)

theorem getattr_setattrs_mem (c : Constraint) (kwargs : List (String × Value)) (kv : String × Value)
    (hnd : (kwargs.map Prod.fst).Nodup) (hm : kv ∈ kwargs) :
    getattr (setattrs c kwargs) kv.1 = some kv.2 := by
  induction kwargs generalizing c with
  | nil => cases hm
  | cons hd rest ih =>
    obtain ⟨k1, v1⟩ := hd
    simp only [List.map_cons, List.nodup_cons] at hnd
    rcases List.mem_cons.mp hm with he | hr
    · subst he
      show getattr (setattrs (setattr c k1 v1) rest) k1 = some v1
      rw [getattr_setattrs_not_mem (setattr c k1 v1) rest k1 hnd.1]
      exact alookup_updAssoc_self c.props k1 v1
    · exact ih (setattr c k1 v1) hnd.2 hr

theorem getattr_add_influence_driver (c : Constraint) (t p : String) (inv : Bool) (key : String) :
    getattr (add_influence_driver c t p inv) key = getattr c key := rfl

theorem add_influence_driver_ctype (c : Constraint) (t p : String) (inv : Bool) :
    (add_influence_driver c t p inv).ctype = c.ctype := rfl

theorem add_influence_driver_cname (c : Constraint) (t p : String) (inv : Bool) :
    (add_influence_driver c t p inv).name = c.name := rfl

theorem add_influence_driver_drivers (c : Constraint) (t p : String) (inv : Bool) :
    (add_influence_driver c t p inv).drivers = c.drivers ++
      [{ path := "influence",
         expression := (if inv then "1-" else "+") ++ "mmd_uuunyaa_influence",
         vars := [{ name := "mmd_uuunyaa_influence", target := t, data_path := p }] }] := rfl

theorem writeBack_add_constraint (pb : PoseBone) (ck cn : String)
    (kwargs : List (String × Value)) (c : Constraint) :
    (writeBack (add_constraint pb ck cn kwargs).1 c).constraints = pb.constraints ++ [c] := by
  simp [writeBack, add_constraint]

theorem filter_of_filter_not {α : Type} (p : α → Bool) (l : List α) :
    (l.filter (fun a => !(p a))).filter p = [] := by
  induction l with
  | nil => rfl
  | cons a t ih => by_cases h : p a <;> simp [h, ih]

/-- C2: each of the five constraint helpers appends exactly one constraint of
its named kind to the given pose bone and returns it, applies extra keyword
fields verbatim, and attaches exactly one influence driver to the given data
path with optional inversion.  The four copy helpers additionally set target,
subtarget, target_space and owner_space from their arguments, both spaces
from the single space argument.  Amended from the claim as stated:
add_ik_constraint takes no space argument and leaves target_space and
owner_space unassigned, setting chain_count and iterations instead (see the
counterexample add_ik_constraint_sets_no_spaces). -/
theorem constraint_helpers_spec (pose_bone : PoseBone)
    (target_object subtarget space influence_data_path : String)
    (chain_count iterations : Int) (invert_influence : Bool)
    (kwargs : List (String × Value))
    (hnd : (kwargs.map Prod.fst).Nodup)
    (h1 : "target" ∉ kwargs.map Prod.fst) (h2 : "subtarget" ∉ kwargs.map Prod.fst)
    (h3 : "target_space" ∉ kwargs.map Prod.fst) (h4 : "owner_space" ∉ kwargs.map Prod.fst)
    (h5 : "chain_count" ∉ kwargs.map Prod.fst) (h6 : "iterations" ∉ kwargs.map Prod.fst) :
    copyHelperClaim add_copy_transforms_constraint "COPY_TRANSFORMS" "mmd_uuunyaa_copy_transforms"
      pose_bone target_object subtarget space influence_data_path invert_influence kwargs ∧
    copyHelperClaim add_copy_rotation_constraint "COPY_ROTATION" "mmd_uuunyaa_copy_rotation"
      pose_bone target_object subtarget space influence_data_path invert_influence kwargs ∧
    copyHelperClaim add_copy_location_constraint "COPY_LOCATION" "mmd_uuunyaa_copy_location"
      pose_bone target_object subtarget space influence_data_path invert_influence kwargs ∧
    copyHelperClaim add_copy_scale_constraint "COPY_SCALE" "mmd_uuunyaa_copy_scale"
      pose_bone target_object subtarget space influence_data_path invert_influence kwargs ∧
    ikHelperClaim pose_bone target_object subtarget influence_data_path
      chain_count iterations invert_influence kwargs := by
  refine ⟨?_, ?_, ?_, ?_, ?_⟩
  · unfold copyHelperClaim add_copy_transforms_constraint
    refine ⟨?_, ?_, ?_, ?_, ?_, ?_, ?_, ?_, ?_⟩
    · exact writeBack_add_constraint pose_bone _ _ _ _
    · rw [add_influence_driver_ctype]
      simp [add_constraint, setattrs_ctype]
    · rw [add_influence_driver_cname]
      simp [add_constraint, setattrs_cname]
    · rw [getattr_add_influence_driver]
      show getattr (setattrs _ (_ ++ kwargs)) "target" = _
      rw [setattrs_append, getattr_setattrs_not_mem _ _ _ h1]
      rfl
    · rw [getattr_add_influence_driver]
      show getattr (setattrs _ (_ ++ kwargs)) "subtarget" = _
      rw [setattrs_append, getattr_setattrs_not_mem _ _ _ h2]
      rfl
    · rw [getattr_add_influence_driver]
      show getattr (setattrs _ (_ ++ kwargs)) "target_space" = _
      rw [setattrs_append, getattr_setattrs_not_mem _ _ _ h3]
      rfl
    · rw [getattr_add_influence_driver]
      show getattr (setattrs _ (_ ++ kwargs)) "owner_space" = _
      rw [setattrs_append, getattr_setattrs_not_mem _ _ _ h4]
      rfl
    · intro kv hkv
      rw [getattr_add_influence_driver]
      show getattr (setattrs _ (_ ++ kwargs)) kv.1 = _
      rw [setattrs_append]
      exact getattr_setattrs_mem _ kwargs kv hnd hkv
    · rw [add_influence_driver_drivers]
      simp [add_constraint, setattrs_drivers]
  · unfold copyHelperClaim add_copy_rotation_constraint
    refine ⟨?_, ?_, ?_, ?_, ?_, ?_, ?_, ?_, ?_⟩
    · exact writeBack_add_constraint pose_bone _ _ _ _
    · rw [add_influence_driver_ctype]
      simp [add_constraint, setattrs_ctype]
    · rw [add_influence_driver_cname]
      simp [add_constraint, setattrs_cname]
    · rw [getattr_add_influence_driver]
      show getattr (setattrs _ (_ ++ kwargs)) "target" = _
      rw [setattrs_append, getattr_setattrs_not_mem _ _ _ h1]
      rfl
    · rw [getattr_add_influence_driver]
      show getattr (setattrs _ (_ ++ kwargs)) "subtarget" = _
      rw [setattrs_append, getattr_setattrs_not_mem _ _ _ h2]
      rfl
    · rw [getattr_add_influence_driver]
      show getattr (setattrs _ (_ ++ kwargs)) "target_space" = _
      rw [setattrs_append, getattr_setattrs_not_mem _ _ _ h3]
      rfl
    · rw [getattr_add_influence_driver]
      show getattr (setattrs _ (_ ++ kwargs)) "owner_space" = _
      rw [setattrs_append, getattr_setattrs_not_mem _ _ _ h4]
      rfl
    · intro kv hkv
      rw [getattr_add_influence_driver]
      show getattr (setattrs _ (_ ++ kwargs)) kv.1 = _
      rw [setattrs_append]
      exact getattr_setattrs_mem _ kwargs kv hnd hkv
    · rw [add_influence_driver_drivers]
      simp [add_constraint, setattrs_drivers]
  · unfold copyHelperClaim add_copy_location_constraint
    refine ⟨?_, ?_, ?_, ?_, ?_, ?_, ?_, ?_, ?_⟩
    · exact writeBack_add_constraint pose_bone _ _ _ _
    · rw [add_influence_driver_ctype]
      simp [add_constraint, setattrs_ctype]
    · rw [add_influence_driver_cname]
      simp [add_constraint, setattrs_cname]
    · rw [getattr_add_influence_driver]
      show getattr (setattrs _ (_ ++ kwargs)) "target" = _
      rw [setattrs_append, getattr_setattrs_not_mem _ _ _ h1]
      rfl
    · rw [getattr_add_influence_driver]
      show getattr (setattrs _ (_ ++ kwargs)) "subtarget" = _
      rw [setattrs_append, getattr_setattrs_not_mem _ _ _ h2]
      rfl
    · rw [getattr_add_influence_driver]
      show getattr (setattrs _ (_ ++ kwargs)) "target_space" = _
      rw [setattrs_append, getattr_setattrs_not_mem _ _ _ h3]
      rfl
    · rw [getattr_add_influence_driver]
      show getattr (setattrs _ (_ ++ kwargs)) "owner_space" = _
      rw [setattrs_append, getattr_setattrs_not_mem _ _ _ h4]
      rfl
    · intro kv hkv
      rw [getattr_add_influence_driver]
      show getattr (setattrs _ (_ ++ kwargs)) kv.1 = _
      rw [setattrs_append]
      exact getattr_setattrs_mem _ kwargs kv hnd hkv
    · rw [add_influence_driver_drivers]
      simp [add_constraint, setattrs_drivers]
  · unfold copyHelperClaim add_copy_scale_constraint
    refine ⟨?_, ?_, ?_, ?_, ?_, ?_, ?_, ?_, ?_⟩
    · exact writeBack_add_constraint pose_bone _ _ _ _
    · rw [add_influence_driver_ctype]
      simp [add_constraint, setattrs_ctype]
    · rw [add_influence_driver_cname]
      simp [add_constraint, setattrs_cname]
    · rw [getattr_add_influence_driver]
      show getattr (setattrs _ (_ ++ kwargs)) "target" = _
      rw [setattrs_append, getattr_setattrs_not_mem _ _ _ h1]
      rfl
    · rw [getattr_add_influence_driver]
      show getattr (setattrs _ (_ ++ kwargs)) "subtarget" = _
      rw [setattrs_append, getattr_setattrs_not_mem _ _ _ h2]
      rfl
    · rw [getattr_add_influence_driver]
      show getattr (setattrs _ (_ ++ kwargs)) "target_space" = _
      rw [setattrs_append, getattr_setattrs_not_mem _ _ _ h3]
      rfl
    · rw [getattr_add_influence_driver]
      show getattr (setattrs _ (_ ++ kwargs)) "owner_space" = _
      rw [setattrs_append, getattr_setattrs_not_mem _ _ _ h4]
      rfl
    · intro kv hkv
      rw [getattr_add_influence_driver]
      show getattr (setattrs _ (_ ++ kwargs)) kv.1 = _
      rw [setattrs_append]
      exact getattr_setattrs_mem _ kwargs kv hnd hkv
    · rw [add_influence_driver_drivers]
      simp [add_constraint, setattrs_drivers]
  · unfold ikHelperClaim add_ik_constraint
    refine ⟨?_, ?_, ?_, ?_, ?_, ?_, ?_, ?_, ?_, ?_, ?_⟩
    · exact writeBack_add_constraint pose_bone _ _ _ _
    · rw [add_influence_driver_ctype]
      simp [add_constraint, setattrs_ctype]
    · rw [add_influence_driver_cname]
      simp [add_constraint, setattrs_cname]
    · rw [getattr_add_influence_driver]
      show getattr (setattrs _ (_ ++ kwargs)) "target" = _
      rw [setattrs_append, getattr_setattrs_not_mem _ _ _ h1]
      rfl
    · rw [getattr_add_influence_driver]
      show getattr (setattrs _ (_ ++ kwargs)) "subtarget" = _
      rw [setattrs_append, getattr_setattrs_not_mem _ _ _ h2]
      rfl
    · rw [getattr_add_influence_driver]
      show getattr (setattrs _ (_ ++ kwargs)) "chain_count" = _
      rw [setattrs_append, getattr_setattrs_not_mem _ _ _ h5]
      rfl
    · rw [getattr_add_influence_driver]
      show getattr (setattrs _ (_ ++ kwargs)) "iterations" = _
      rw [setattrs_append, getattr_setattrs_not_mem _ _ _ h6]
      rfl
    · rw [getattr_add_influence_driver]
      show getattr (setattrs _ (_ ++ kwargs)) "target_space" = _
      rw [setattrs_append, getattr_setattrs_not_mem _ _ _ h3]
      rfl
    · rw [getattr_add_influence_driver]
      show getattr (setattrs _ (_ ++ kwargs)) "owner_space" = _
      rw [setattrs_append, getattr_setattrs_not_mem _ _ _ h4]
      rfl
    · intro kv hkv
      rw [getattr_add_influence_driver]
      show getattr (setattrs _ (_ ++ kwargs)) kv.1 = _
      rw [setattrs_append]
      exact getattr_setattrs_mem _ kwargs kv hnd hkv
    · rw [add_influence_driver_drivers]
      simp [add_constraint, setattrs_drivers]

/-- Counterexample to claim C2 as stated: the claim asserts that every one of
the five helpers, add_ik_constraint included, sets target_space and
owner_space from its arguments; on this concrete call add_ik_constraint, which
has no space parameter at all, leaves both fields unassigned. -/
theorem add_ik_constraint_sets_no_spaces :
    getattr (add_ik_constraint exBone "Rig" "hand" "pose.bones[x]" 2 48 false []).2
      "target_space" = none ∧
    getattr (add_ik_constraint exBone "Rig" "hand" "pose.bones[x]" 2 48 false []).2
      "owner_space" = none ∧
    (add_ik_constraint exBone "Rig" "hand" "pose.bones[x]" 2 48 false []).2.ctype = "IK" := by
  decide

/-- Witness for constraint_helpers_spec at a concrete bone, with one extra
keyword field exercising the verbatim clause. -/
theorem constraint_helpers_spec_witness :
    (([("mix_mode", Value.str "ADD")].map Prod.fst).Nodup) ∧
    copyHelperClaim add_copy_transforms_constraint "COPY_TRANSFORMS" "mmd_uuunyaa_copy_transforms"
      exBone "Rig" "arm" "LOCAL" "pose.bones[x]" true [("mix_mode", Value.str "ADD")] := by
  have h := constraint_helpers_spec exBone "Rig" "arm" "LOCAL" "pose.bones[x]" 2 48 true
    [("mix_mode", Value.str "ADD")] (by decide) (by decide) (by decide) (by decide) (by decide)
    (by decide) (by decide)
  exact ⟨by decide, h.1⟩

/-- C3: after update_influence_driver runs on a constraint, whatever influence
drivers were attached before, exactly one influence driver is attached, and
its evaluation under the host driver semantics yields the referenced
property's value, or one minus that value when the influence is inverted. -/
theorem update_influence_driver_unique_and_eval (c : Constraint)
    (target data_path : String) (invert_influence : Bool) :
    ((update_influence_driver c target data_path invert_influence).drivers.filter
      (fun d => d.path == "influence")).length = 1 ∧
    ∀ d ∈ (update_influence_driver c target data_path invert_influence).drivers.filter
      (fun d => d.path == "influence"),
      ∀ propValue : String → String → ℚ,
        evalDriver d propValue =
          some (if invert_influence then 1 - propValue target data_path
                else propValue target data_path) := by
  have hd : (update_influence_driver c target data_path invert_influence).drivers.filter
      (fun d => d.path == "influence") =
      [{ path := "influence",
         expression := (if invert_influence then "1-" else "+") ++ "mmd_uuunyaa_influence",
         vars := [{ name := "mmd_uuunyaa_influence", target := target, data_path := data_path }] }] := by
    simp [update_influence_driver, add_influence_driver, add_driver, driver_remove,
      List.filter_append, filter_of_filter_not]
  rw [hd]
  refine ⟨rfl, ?_⟩
  intro d hdm propValue
  rw [List.mem_singleton] at hdm
  subst hdm
  cases invert_influence
  · rfl
  · rfl

/-- Witness for update_influence_driver_unique_and_eval on a constraint that
already carries a stale influence driver and a driver on another path. -/
theorem update_influence_driver_unique_and_eval_witness :
    ((update_influence_driver exConstraint "Rig" "pose.bones[p]" true).drivers.filter
      (fun d => d.path == "influence")).length = 1 ∧
    evalDriver
      { path := "influence",
        expression := (if true then "1-" else "+") ++ "mmd_uuunyaa_influence",
        vars := [{ name := "mmd_uuunyaa_influence", target := "Rig", data_path := "pose.bones[p]" }] }
      (fun _ _ => 5) =
      some (if true then 1 - (fun _ _ => (5 : ℚ)) "Rig" "pose.bones[p]"
            else (fun _ _ => (5 : ℚ)) "Rig" "pose.bones[p]") := by
  have h := update_influence_driver_unique_and_eval exConstraint "Rig" "pose.bones[p]" true
  exact ⟨h.1, h.2 _ (by decide) (fun _ _ => 5)⟩

/-- C1 (the code evaluated at the failing input): remove_constraints iterates
the live constraint collection while removing from it, so after the removal
of a matching constraint the iterator skips the element that slid into its
slot.  On a bone whose stack holds two consecutive engine-named constraints,
the second one survives, although its name carries the reserved
mmd_uuunyaa_ name tag; the claim and the spec say every such constraint is
deleted.  The other two conjuncts record the halves of the claim the code
does satisfy on this input: a bone with only a user-authored constraint is
left unchanged, with no error possible in the total model. -/
theorem remove_constraints_skips_adjacent_match :
    remove_constraints
      [{ name := "arm", name_j := "", props := [],
         constraints :=
           [{ ctype := "COPY_ROTATION", name := "mmd_uuunyaa_copy_rotation",
              props := [], drivers := [] },
            { ctype := "COPY_LOCATION", name := "mmd_uuunyaa_copy_location",
              props := [], drivers := [] }] }] =
      [{ name := "arm", name_j := "", props := [],
         constraints :=
           [{ ctype := "COPY_LOCATION", name := "mmd_uuunyaa_copy_location",
              props := [], drivers := [] }] }] ∧
    strStartsWith "mmd_uuunyaa_copy_location" "mmd_uuunyaa_" = true ∧
    remove_constraints [exBone] = [exBone] := by
  decide

/-- Counterexample to claim C4 as stated: the claim makes the underscore or
dot before the trailing letter optional, so on a name ending in a bare L,
like ArmL, the claimed behavior (followed by the claim-worded
spec_side_suffix) yields L, while the source regex, which requires the
separator, yields none. -/
theorem to_bone_suffix_requires_separator :
    spec_side_suffix "ArmL" = some "L" ∧ to_bone_suffix "ArmL" = none := by
  decide

theorem data_reverse_pair (bone_name : String) (pre : List Char) (sep lc : Char)
    (heq : bone_name.data = pre ++ [sep, lc]) :
    bone_name.data.reverse = lc :: sep :: pre.reverse := by
  rw [heq]
  simp

/-- C4 (amended): to_bone_suffix returns L exactly when the bone name ends in
an underscore or a dot followed by l or L, and R exactly when it ends in an
underscore or a dot followed by r or R, case-insensitively; the separator is
required, not optional.  The claim's three examples hold as given. -/
theorem to_bone_suffix_spec (bone_name : String) :
    (to_bone_suffix bone_name = some "L" ↔
      ∃ pre sep lc, bone_name.data = pre ++ [sep, lc] ∧
        (sep = '_' ∨ sep = '.') ∧ (lc = 'l' ∨ lc = 'L')) ∧
    (to_bone_suffix bone_name = some "R" ↔
      ∃ pre sep rc, bone_name.data = pre ++ [sep, rc] ∧
        (sep = '_' ∨ sep = '.') ∧ (rc = 'r' ∨ rc = 'R')) ∧
    to_bone_suffix "leftArm_L" = some "L" ∧
    to_bone_suffix "leftArm.r" = some "R" ∧
    to_bone_suffix "Spine" = none := by
  refine ⟨?_, ?_, by decide, by decide, by decide⟩
  · unfold to_bone_suffix
    rcases hr : bone_name.data.reverse with _ | ⟨c, _ | ⟨s, t⟩⟩
    · have hnil : bone_name.data = [] := by
        have := congrArg List.reverse hr
        simpa using this
      simp only []
      constructor
      · intro h
        cases h
      · rintro ⟨pre, sep, lc, heq, _, _⟩
        rw [hnil] at heq
        exact absurd heq.symm (by simp)
    · have hone : bone_name.data = [c] := by
        have := congrArg List.reverse hr
        simpa using this
      simp only []
      constructor
      · intro h
        cases h
      · rintro ⟨pre, sep, lc, heq, _, _⟩
        rw [hone] at heq
        have hlen := congrArg List.length heq
        simp at hlen
    · have hl : bone_name.data = t.reverse ++ [s, c] := by
        have := congrArg List.reverse hr
        simpa [List.append_assoc] using this
      simp only []
      split_ifs with hcon hlet
      · constructor
        · intro _
          exact ⟨t.reverse, s, c, hl, hcon.2, hlet⟩
        · intro _
          rfl
      · constructor
        · intro h
          exact absurd h (by decide)
        · rintro ⟨pre, sep, lc, heq, _, hlc⟩
          have hrev := data_reverse_pair bone_name pre sep lc heq
          rw [hr] at hrev
          have hc : c = lc := by
            injection hrev with h1 h2
          exact absurd (hc ▸ hlc) hlet
      · constructor
        · intro h
          cases h
        · rintro ⟨pre, sep, lc, heq, hsep, hlc⟩
          have hrev := data_reverse_pair bone_name pre sep lc heq
          rw [hr] at hrev
          injection hrev with h1 h2
          injection h2 with h2 _
          refine absurd ⟨?_, ?_⟩ hcon
          · rcases hlc with h | h
            · exact Or.inl (h1.trans h)
            · exact Or.inr (Or.inl (h1.trans h))
          · rw [h2]
            exact hsep
  · unfold to_bone_suffix
    rcases hr : bone_name.data.reverse with _ | ⟨c, _ | ⟨s, t⟩⟩
    · have hnil : bone_name.data = [] := by
        have := congrArg List.reverse hr
        simpa using this
      simp only []
      constructor
      · intro h
        cases h
      · rintro ⟨pre, sep, rc, heq, _, _⟩
        rw [hnil] at heq
        exact absurd heq.symm (by simp)
    · have hone : bone_name.data = [c] := by
        have := congrArg List.reverse hr
        simpa using this
      simp only []
      constructor
      · intro h
        cases h
      · rintro ⟨pre, sep, rc, heq, _, _⟩
        rw [hone] at heq
        have hlen := congrArg List.length heq
        simp at hlen
    · have hl : bone_name.data = t.reverse ++ [s, c] := by
        have := congrArg List.reverse hr
        simpa [List.append_assoc] using this
      simp only []
      split_ifs with hcon hlet
      · constructor
        · intro h
          exact absurd h (by decide)
        · rintro ⟨pre, sep, rc, heq, _, hrc⟩
          have hrev := data_reverse_pair bone_name pre sep rc heq
          rw [hr] at hrev
          have hc : c = rc := by
            injection hrev with h1 h2
          rcases hlet with h | h <;> rcases hrc with h3 | h3 <;>
            rw [hc, h3] at h <;> cases h
      · constructor
        · intro _
          have hc : c = 'r' ∨ c = 'R' := by
            rcases hcon.1 with h | h | h | h
            · exact absurd (Or.inl h) hlet
            · exact absurd (Or.inr h) hlet
            · exact Or.inl h
            · exact Or.inr h
          exact ⟨t.reverse, s, c, hl, hcon.2, hc⟩
        · intro _
          rfl
      · constructor
        · intro h
          cases h
        · rintro ⟨pre, sep, rc, heq, hsep, hrc⟩
          have hrev := data_reverse_pair bone_name pre sep rc heq
          rw [hr] at hrev
          injection hrev with h1 h2
          injection h2 with h2 _
          refine absurd ⟨?_, ?_⟩ hcon
          · rcases hrc with h | h
            · exact Or.inr (Or.inr (Or.inl (h1.trans h)))
            · exact Or.inr (Or.inr (Or.inr (h1.trans h)))
          · rw [h2]
            exact hsep

theorem atan2_one_one : atan2 1 1 = Real.pi / 4 := by
  unfold atan2
  rw [if_pos one_pos]
  norm_num [Real.arctan_one]

/-- C5: to_angle returns the planar arctangent of the vector's projection for
each of the three plane tags XY, XZ and YZ, in particular pi over four at the
vector (1, 0, 1) in the XZ plane, and fails with the invalid-argument error
exactly when the tag is none of the three. -/
theorem to_angle_spec (vector : Vec3) (plane : String) :
    to_angle vector "XZ" = Except.ok (atan2 vector.z vector.x) ∧
    to_angle vector "XY" = Except.ok (atan2 vector.y vector.x) ∧
    to_angle vector "YZ" = Except.ok (atan2 vector.z vector.y) ∧
    (exceptOk (to_angle vector plane) = true ↔
      plane = "XY" ∨ plane = "XZ" ∨ plane = "YZ") ∧
    to_angle { x := 1, y := 0, z := 1 } "XZ" = Except.ok (Real.pi / 4) ∧
    to_angle vector "ZZ" =
      Except.error ("unknown plane, expected: XY, XZ, YZ, not " ++ "ZZ") := by
  refine ⟨?_, ?_, ?_, ?_, ?_, ?_⟩
  · simp [to_angle]
  · simp [to_angle]
  · simp [to_angle]
  · unfold to_angle
    split_ifs with ha hb hc <;> simp_all [exceptOk]
  · simp [to_angle, atan2_one_one]
  · simp [to_angle]

theorem findBone_updateBone (bones : List PoseBone) (n : String) (f : PoseBone → PoseBone)
    (hf : ∀ b, (f b).name = b.name) (m : String) :
    findBone (updateBone bones n f) m =
      if n = m then (findBone bones m).map f else findBone bones m := by
  induction bones with
  | nil => by_cases h : n = m <;> simp [findBone, updateBone, h]
  | cons b rest ih =>
    by_cases hb : b.name = n
    · by_cases hm : n = m
      · subst hm
        simp [updateBone, findBone, hb, hf b]
      · simp [updateBone, findBone, hb, hf b, hm]
    · by_cases hm2 : b.name = m
      · have hnm : n ≠ m := fun he => hb (by rw [hm2, he])
        simp [updateBone, findBone, hb, hm2, hnm, Ne.symm hnm]
      · simp [updateBone, findBone, hb, hm2, ih]

/-- Shared round-trip argument: with a resolved data path and an existing
owner bone, a set followed by a get returns the written value. -/
theorem set_get_roundtrip_aux (rig : Rig) (control_type : ControlType) (datapath : DataPath)
    (b : PoseBone) (value : ℚ)
    (h1 : alookup rig.datapaths control_type = some datapath)
    (h2 : findBone rig.pose_bones datapath.bone_name = some b) :
    ∃ rigA, set_property rig control_type value = Except.ok rigA ∧
      get_property rigA control_type = Except.ok (some value) := by
  unfold set_property
  simp only [h1, h2]
  refine ⟨_, rfl, ?_⟩
  unfold get_property
  dsimp only
  simp only [h1]
  have hfb : findBone
      (updateBone rig.pose_bones datapath.bone_name
        (fun bb => { bb with props := updAssoc bb.props datapath.prop_name value }))
      datapath.bone_name =
      some { b with props := updAssoc b.props datapath.prop_name value } := by
    rw [findBone_updateBone rig.pose_bones datapath.bone_name
      (fun bb => { bb with props := updAssoc bb.props datapath.prop_name value })
      (fun _ => rfl) datapath.bone_name, if_pos rfl, h2]
    rfl
  simp only [hfb, alookup_updAssoc_self]

/-- C6: for every control type for which the registry has no entry, the
generated getter returns none and the generated setter leaves the rig
unchanged; neither raises an error. -/
theorem property_accessors_skip_unregistered (rig : Rig) (control_type : ControlType) (value : ℚ)
    (h : alookup rig.datapaths control_type = none) :
    get_property rig control_type = Except.ok none ∧
    set_property rig control_type value = Except.ok rig := by
  unfold get_property set_property
  simp [h]

/-- Witness for property_accessors_skip_unregistered on a rig with an empty
registry. -/
theorem property_accessors_skip_unregistered_witness :
    alookup exRigNoEntry.datapaths ControlType.ARM_L_IK_FK = none ∧
    get_property exRigNoEntry ControlType.ARM_L_IK_FK = Except.ok none ∧
    set_property exRigNoEntry ControlType.ARM_L_IK_FK 1 = Except.ok exRigNoEntry := by
  have h := property_accessors_skip_unregistered exRigNoEntry ControlType.ARM_L_IK_FK 1 (by decide)
  exact ⟨by decide, h.1, h.2⟩

/-- C7: when the registry resolves a control's data path and the owner bone
exists in the rig, setting the control to a value through the generated
setter and reading it back through the generated getter returns that value;
the generated accessors all delegate to these two functions at a fixed
control type. -/
theorem set_then_get_property (rig : Rig) (control_type : ControlType) (datapath : DataPath)
    (b : PoseBone) (value : ℚ)
    (h1 : alookup rig.datapaths control_type = some datapath)
    (h2 : findBone rig.pose_bones datapath.bone_name = some b) :
    ∃ rigA, set_property rig control_type value = Except.ok rigA ∧
      get_property rigA control_type = Except.ok (some value) :=
  set_get_roundtrip_aux rig control_type datapath b value h1 h2

/-- Witness for set_then_get_property: the claim's own example, an IK/FK
blend control set to one and read back as one. -/
theorem set_then_get_property_witness :
    alookup exRig.datapaths ControlType.ARM_L_IK_FK =
      some { bone_name := "torso", prop_name := "arm_l_ik_fk" } ∧
    (∃ rigA, set_property exRig ControlType.ARM_L_IK_FK 1 = Except.ok rigA ∧
      get_property rigA ControlType.ARM_L_IK_FK = Except.ok (some 1)) := by
  have h := set_then_get_property exRig ControlType.ARM_L_IK_FK
    { bone_name := "torso", prop_name := "arm_l_ik_fk" }
    { name := "torso", name_j := "", props := [("arm_l_ik_fk", 0)], constraints := [] } 1
    (by decide) (by decide)
  exact ⟨by decide, h⟩

/-- Counterexample to claim C10 as stated: the registry resolves the control
to the existing bone torso whose property table lacks the key, so by the
claim both accessors should raise a key-lookup error; the setter instead
succeeds, creating the property with the written value, exactly as Blender
custom-property item assignment does. -/
theorem set_property_creates_missing_property :
    alookup exRigNoProp.datapaths ControlType.ARM_L_IK_FK =
      some { bone_name := "torso", prop_name := "arm_l_ik_fk" } ∧
    findBone exRigNoProp.pose_bones "torso" =
      some { name := "torso", name_j := "", props := [], constraints := [] } ∧
    set_property exRigNoProp ControlType.ARM_L_IK_FK 1 =
      Except.ok
        { datapaths :=
            [(ControlType.ARM_L_IK_FK, { bone_name := "torso", prop_name := "arm_l_ik_fk" })],
          pose_bones :=
            [{ name := "torso", name_j := "", props := [("arm_l_ik_fk", 1)], constraints := [] }] } :=
  ⟨rfl, rfl, rfl⟩

/-- C10 (amended): when the registry resolves a data path for a control, a
missing owner bone makes both the getter and the setter raise the key-lookup
error of the bone name; a present owner bone with the property missing makes
the getter raise the key-lookup error of the property name, while the setter
succeeds and creates the property with the written value.  The documented
none and no-op behavior covers only a missing registry entry. -/
theorem property_accessors_missing_target (rig : Rig) (control_type : ControlType)
    (datapath : DataPath) (value : ℚ)
    (h1 : alookup rig.datapaths control_type = some datapath) :
    (findBone rig.pose_bones datapath.bone_name = none →
      get_property rig control_type = Except.error (PyErr.keyError datapath.bone_name) ∧
      set_property rig control_type value = Except.error (PyErr.keyError datapath.bone_name)) ∧
    (∀ b, findBone rig.pose_bones datapath.bone_name = some b →
      alookup b.props datapath.prop_name = none →
      get_property rig control_type = Except.error (PyErr.keyError datapath.prop_name) ∧
      ∃ rigA, set_property rig control_type value = Except.ok rigA ∧
        get_property rigA control_type = Except.ok (some value)) := by
  constructor
  · intro hb
    unfold get_property set_property
    simp [h1, hb]
  · intro b hb hp
    constructor
    · unfold get_property
      simp [h1, hb, hp]
    · exact set_get_roundtrip_aux rig control_type datapath b value h1 hb

/-- Witness for property_accessors_missing_target, exercising both the
missing-bone branch and the missing-property branch on concrete rigs. -/
theorem property_accessors_missing_target_witness :
    alookup exRigNoBone.datapaths ControlType.ARM_L_IK_FK =
      some { bone_name := "torso", prop_name := "arm_l_ik_fk" } ∧
    get_property exRigNoBone ControlType.ARM_L_IK_FK =
      Except.error (PyErr.keyError "torso") ∧
    set_property exRigNoBone ControlType.ARM_L_IK_FK 1 =
      Except.error (PyErr.keyError "torso") ∧
    get_property exRigNoProp ControlType.ARM_L_IK_FK =
      Except.error (PyErr.keyError "arm_l_ik_fk") := by
  have hA := property_accessors_missing_target exRigNoBone ControlType.ARM_L_IK_FK
    { bone_name := "torso", prop_name := "arm_l_ik_fk" } 1 (by decide)
  have hB := property_accessors_missing_target exRigNoProp ControlType.ARM_L_IK_FK
    { bone_name := "torso", prop_name := "arm_l_ik_fk" } 1 (by decide)
  refine ⟨by decide, (hA.1 (by decide)).1, (hA.1 (by decide)).2, ?_⟩
  exact (hB.2 { name := "torso", name_j := "", props := [], constraints := [] }
    (by decide) (by decide)).1

theorem updateBone_map_name (bones : List PoseBone) (n : String) (f : PoseBone → PoseBone)
    (hf : ∀ b, (f b).name = b.name) :
    (updateBone bones n f).map PoseBone.name = bones.map PoseBone.name := by
  induction bones with
  | nil => rfl
  | cons b rest ih =>
    by_cases hb : b.name = n <;> simp [updateBone, hb, hf, ih]

theorem assignLoop_map_name (items : List (String × Option String)) (bones : List PoseBone) :
    (assignLoop bones items).map PoseBone.name = bones.map PoseBone.name := by
  induction items generalizing bones with
  | nil => rfl
  | cons item rest ih =>
    obtain ⟨m, pn⟩ := item
    cases pn with
    | none => simp [assignLoop, ih]
    | some pn =>
      by_cases hex : (findBone bones pn).isSome <;>
        simp [assignLoop, hex, ih, updateBone_map_name]

theorem clearLoop_map_name (mapping : List (String × Option String)) (bones : List PoseBone) :
    (clearLoop mapping bones).map PoseBone.name = bones.map PoseBone.name := by
  induction bones with
  | nil => rfl
  | cons b rest ih =>
    by_cases h : hasKey mapping b.name_j <;> simp_all [clearLoop, h]

theorem assignLoop_findBone (items : List (String × Option String)) (bones : List PoseBone)
    (n : String) :
    findBone (assignLoop bones items) n =
      (findBone bones n).map (fun b => { b with name_j := writeFold items n b.name_j }) := by
  induction items generalizing bones with
  | nil =>
    cases hfb : findBone bones n <;> simp [assignLoop, writeFold, hfb]
  | cons item rest ih =>
    obtain ⟨m, pn⟩ := item
    cases pn with
    | none =>
      rw [show assignLoop bones ((m, none) :: rest) = assignLoop bones rest from rfl, ih]
      cases hfb : findBone bones n <;> simp [writeFold, hfb]
    | some pn =>
      by_cases hex : (findBone bones pn).isSome
      · rw [show assignLoop bones ((m, some pn) :: rest) =
            (if (findBone bones pn).isSome then
              assignLoop (updateBone bones pn (fun b => { b with name_j := m })) rest
            else assignLoop bones rest) from rfl, if_pos hex, ih,
          findBone_updateBone bones pn (fun b => { b with name_j := m }) (fun _ => rfl) n]
        by_cases hpn : pn = n
        · subst hpn
          rw [if_pos rfl]
          cases hfb : findBone bones pn <;> simp [writeFold, hfb, Function.comp]
        · rw [if_neg hpn]
          cases hfb : findBone bones n <;> simp [writeFold, hfb, hpn]
      · rw [show assignLoop bones ((m, some pn) :: rest) =
            (if (findBone bones pn).isSome then
              assignLoop (updateBone bones pn (fun b => { b with name_j := m })) rest
            else assignLoop bones rest) from rfl, if_neg hex, ih]
        by_cases hpn : pn = n
        · subst hpn
          have hfn : findBone bones pn = none := by
            cases hfb : findBone bones pn
            · rfl
            · rw [hfb] at hex
              simp at hex
          simp [hfn]
        · cases hfb : findBone bones n <;> simp [writeFold, hfb, hpn]

theorem writeFold_mem (items : List (String × Option String)) (n : String) (cur : String) :
    writeFold items n cur = cur ∨ (writeFold items n cur, some n) ∈ items := by
  induction items generalizing cur with
  | nil => exact Or.inl rfl
  | cons item rest ih =>
    obtain ⟨m, pn⟩ := item
    rw [show writeFold ((m, pn) :: rest) n cur =
        writeFold rest n (if pn = some n then m else cur) from rfl]
    rcases ih (if pn = some n then m else cur) with h | h
    · by_cases hp : pn = some n
      · right
        rw [h, if_pos hp]
        rw [hp]
        exact List.Mem.head _
      · left
        rw [h, if_neg hp]
    · right
      exact List.Mem.tail _ h

theorem findBone_of_mem (bones : List PoseBone) (hnd : (bones.map PoseBone.name).Nodup)
    (b : PoseBone) (hb : b ∈ bones) : findBone bones b.name = some b := by
  induction bones with
  | nil => cases hb
  | cons x rest ih =>
    simp only [List.map_cons, List.nodup_cons] at hnd
    rcases List.mem_cons.mp hb with he | hr
    · subst he
      simp [findBone]
    · have hx : x.name ≠ b.name := by
        intro he
        exact hnd.1 (he ▸ List.mem_map_of_mem PoseBone.name hr)
      simp only [findBone, if_neg hx]
      exact ih hnd.2 hr

theorem mem_of_findBone (bones : List PoseBone) (n : String) (b : PoseBone)
    (h : findBone bones n = some b) : b ∈ bones ∧ b.name = n := by
  induction bones with
  | nil => cases h
  | cons x rest ih =>
    by_cases hx : x.name = n
    · simp only [findBone, if_pos hx] at h
      cases h
      exact ⟨List.Mem.head _, hx⟩
    · simp only [findBone, if_neg hx] at h
      obtain ⟨h1, h2⟩ := ih h
      exact ⟨List.Mem.tail _ h1, h2⟩

theorem clearLoop_name_j (mapping : List (String × Option String)) (bones : List PoseBone)
    (b : PoseBone) (hb : b ∈ clearLoop mapping bones) :
    b.name_j = "" ∨ hasKey mapping b.name_j = false := by
  simp only [clearLoop, List.mem_map] at hb
  obtain ⟨a, ha, rfl⟩ := hb
  by_cases h : hasKey mapping a.name_j
  · left
    simp [h]
  · right
    simp only [if_neg h]
    cases hB : hasKey mapping a.name_j
    · rfl
    · exact absurd hB h

theorem mem_keys_updAssoc {κ α : Type} [DecidableEq κ] (d : List (κ × α)) (k : κ) (v : α)
    (x : κ) (h : x ∈ (updAssoc d k v).map Prod.fst) : x ∈ d.map Prod.fst ∨ x = k := by
  induction d with
  | nil =>
    simp [updAssoc] at h
    exact Or.inr h
  | cons kv rest ih =>
    obtain ⟨k1, v1⟩ := kv
    by_cases hk : k1 = k
    · rw [show updAssoc ((k1, v1) :: rest) k v = (k, v) :: rest from by simp [updAssoc, hk]] at h
      simp only [List.map_cons] at h ⊢
      rcases List.mem_cons.mp h with h | h
      · exact Or.inr h
      · exact Or.inl (List.mem_cons_of_mem _ h)
    · rw [show updAssoc ((k1, v1) :: rest) k v = (k1, v1) :: updAssoc rest k v from by
        simp [updAssoc, hk]] at h
      simp only [List.map_cons] at h ⊢
      rcases List.mem_cons.mp h with h | h
      · exact Or.inl (by rw [h]; exact List.mem_cons_self _ _)
      · rcases ih h with h2 | h2
        · exact Or.inl (List.mem_cons_of_mem _ h2)
        · exact Or.inr h2

theorem nodup_keys_updAssoc {κ α : Type} [DecidableEq κ] (d : List (κ × α)) (k : κ) (v : α)
    (hnd : (d.map Prod.fst).Nodup) : ((updAssoc d k v).map Prod.fst).Nodup := by
  induction d with
  | nil => simp [updAssoc]
  | cons kv rest ih =>
    obtain ⟨k1, v1⟩ := kv
    simp only [List.map_cons, List.nodup_cons] at hnd
    by_cases hk : k1 = k
    · subst hk
      rw [show updAssoc ((k1, v1) :: rest) k1 v = (k1, v) :: rest from by simp [updAssoc]]
      simp only [List.map_cons, List.nodup_cons]
      exact ⟨hnd.1, hnd.2⟩
    · rw [show updAssoc ((k1, v1) :: rest) k v = (k1, v1) :: updAssoc rest k v from by
        simp [updAssoc, hk]]
      simp only [List.map_cons, List.nodup_cons]
      constructor
      · intro hmem
        rcases mem_keys_updAssoc rest k v k1 hmem with h | h
        · exact hnd.1 h
        · exact hk h
      · exact ih hnd.2

theorem nodup_keys_dictUpdate (d items : List (String × Option String))
    (hnd : (d.map Prod.fst).Nodup) : ((dictUpdate d items).map Prod.fst).Nodup := by
  induction items generalizing d with
  | nil => exact hnd
  | cons kv rest ih =>
    exact ih (updAssoc d kv.1 kv.2) (nodup_keys_updAssoc d kv.1 kv.2 hnd)

theorem nodup_keys_mergedMapping (infos : List (String × Option String))
    (ov : Option (List (String × Option String))) :
    ((mergedMapping infos ov).map Prod.fst).Nodup := by
  cases ov with
  | none => exact nodup_keys_dictUpdate [] infos (by simp)
  | some o => exact nodup_keys_dictUpdate (mkDict infos) o (nodup_keys_dictUpdate [] infos (by simp))

theorem alookup_eq_of_mem_nodup {κ α : Type} [DecidableEq κ] (d : List (κ × α)) (k : κ) (v : α)
    (hnd : (d.map Prod.fst).Nodup) (hm : (k, v) ∈ d) : alookup d k = some v := by
  induction d with
  | nil => cases hm
  | cons kv rest ih =>
    obtain ⟨k1, v1⟩ := kv
    simp only [List.map_cons, List.nodup_cons] at hnd
    rcases List.mem_cons.mp hm with he | hr
    · cases he
      simp [alookup]
    · have hk : k1 ≠ k := by
        intro he2
        refine hnd.1 ?_
        have : (k, v).1 ∈ rest.map Prod.fst := List.mem_map_of_mem Prod.fst hr
        rw [he2]
        exact this
      simp only [alookup, if_neg hk]
      exact ih hnd.2 hr

/-- C8: assign_mmd_bone_names first clears every managed tag, then assigns
each managed standard name to its mapped pose bone, silently skipping rows
mapped to none and rows whose pose bone does not exist in the rig (caller
overrides included; the function is total, so no error is possible in the
model).  Pose bone names are untouched; any bone left carrying a managed
standard name is exactly the bone the merged mapping sends that name to, so
no stale assignment survives; and a managed standard name is carried by at
most one pose bone.  The empty tag is the cleared state, not an
assignment. -/
theorem assign_mmd_bone_names_spec (mmd_bind_infos : List (String × Option String))
    (overrides : Option (List (String × Option String))) (pose_bones : List PoseBone)
    (hnd : (pose_bones.map PoseBone.name).Nodup) :
    ((assign_mmd_bone_names mmd_bind_infos overrides pose_bones).map PoseBone.name =
      pose_bones.map PoseBone.name) ∧
    (∀ m, hasKey (mergedMapping mmd_bind_infos overrides) m = true →
      ∀ b ∈ assign_mmd_bone_names mmd_bind_infos overrides pose_bones, assignedTo b m →
        alookup (mergedMapping mmd_bind_infos overrides) m = some (some b.name)) ∧
    (∀ m, hasKey (mergedMapping mmd_bind_infos overrides) m = true →
      ∀ b1 ∈ assign_mmd_bone_names mmd_bind_infos overrides pose_bones,
        ∀ b2 ∈ assign_mmd_bone_names mmd_bind_infos overrides pose_bones,
          assignedTo b1 m → assignedTo b2 m → b1 = b2) := by
  have hresult : assign_mmd_bone_names mmd_bind_infos overrides pose_bones =
      assignLoop (clearLoop (mergedMapping mmd_bind_infos overrides) pose_bones)
        (mergedMapping mmd_bind_infos overrides) := rfl
  have hnames : (assign_mmd_bone_names mmd_bind_infos overrides pose_bones).map PoseBone.name =
      pose_bones.map PoseBone.name := by
    rw [hresult, assignLoop_map_name, clearLoop_map_name]
  have hnd2 : ((assign_mmd_bone_names mmd_bind_infos overrides pose_bones).map PoseBone.name).Nodup := by
    rw [hnames]
    exact hnd
  have main : ∀ m, hasKey (mergedMapping mmd_bind_infos overrides) m = true →
      ∀ b ∈ assign_mmd_bone_names mmd_bind_infos overrides pose_bones, assignedTo b m →
        alookup (mergedMapping mmd_bind_infos overrides) m = some (some b.name) := by
    intro m hk b hb hass
    have hfb := findBone_of_mem _ hnd2 b hb
    rw [hresult, assignLoop_findBone] at hfb
    cases hfc : findBone (clearLoop (mergedMapping mmd_bind_infos overrides) pose_bones) b.name with
    | none =>
      rw [hfc] at hfb
      cases hfb
    | some c =>
      rw [hfc] at hfb
      have hb2 : { c with name_j := writeFold (mergedMapping mmd_bind_infos overrides) b.name c.name_j } = b :=
        Option.some.inj hfb
      have hbj : writeFold (mergedMapping mmd_bind_infos overrides) b.name c.name_j = m := by
        have hpj := congrArg PoseBone.name_j hb2
        rw [hass.1] at hpj
        exact hpj
      rcases writeFold_mem (mergedMapping mmd_bind_infos overrides) b.name c.name_j with hw | hw
      · exfalso
        have hcm := mem_of_findBone _ _ _ hfc
        rcases clearLoop_name_j (mergedMapping mmd_bind_infos overrides) pose_bones c hcm.1 with hc | hc
        · exact hass.2 (by rw [← hbj, hw, hc])
        · rw [hw] at hbj
          rw [hbj] at hc
          rw [hk] at hc
          cases hc
      · rw [hbj] at hw
        exact alookup_eq_of_mem_nodup _ m (some b.name)
          (nodup_keys_mergedMapping mmd_bind_infos overrides) hw
  refine ⟨hnames, main, ?_⟩
  intro m hk b1 hb1 b2 hb2 h1 h2
  have e1 := main m hk b1 hb1 h1
  have e2 := main m hk b2 hb2 h2
  rw [e1] at e2
  have hname : b1.name = b2.name := by
    injection Option.some.inj e2
  have f1 := findBone_of_mem _ hnd2 b1 hb1
  have f2 := findBone_of_mem _ hnd2 b2 hb2
  rw [hname, f2] at f1
  exact (Option.some.inj f1).symm

/-- Witness for assign_mmd_bone_names_spec on a concrete rig with a stale
tag, an override redirection, and an override pointing at a missing bone. -/
theorem assign_mmd_bone_names_spec_witness :
    ((exBones.map PoseBone.name).Nodup) ∧
    ((assign_mmd_bone_names exInfos (some exOverrides) exBones).map PoseBone.name =
      exBones.map PoseBone.name) := by
  exact ⟨by decide,
    (assign_mmd_bone_names_spec exInfos (some exOverrides) exBones (by decide)).1⟩

set_option maxRecDepth 8000 in
/-- C9: in the MMDBoneInfo catalog every standard name is unique, and for
every left-side entry (name starting with the left marker) there is an entry
whose name differs only by the left marker replaced with the right marker
and whose bone type is identical. -/
theorem mmd_bone_info_symmetry :
    (mmd_bone_info_entries.map Prod.fst).Nodup ∧
    ∀ e ∈ mmd_bone_info_entries, strStartsWith e.1 "左" = true →
      (mirrorName e.1, e.2) ∈ mmd_bone_info_entries := by
  exact ⟨by decide, by decide⟩

/-- Witness for mmd_bone_info_symmetry at the left arm entry. -/
theorem mmd_bone_info_symmetry_witness :
    ("左腕", MMDBoneType.STANDARD) ∈ mmd_bone_info_entries ∧
    strStartsWith "左腕" "左" = true ∧
    (mirrorName "左腕", MMDBoneType.STANDARD) ∈ mmd_bone_info_entries := by
  refine ⟨by decide, by decide, ?_⟩
  exact mmd_bone_info_symmetry.2 ("左腕", MMDBoneType.STANDARD) (by decide) (by decide)
